import Mathlib

/-!
Shallow embedding of the advanced financial forecasting module
(`src/backend/src/tools/advanced_forecasting.py`) and the horizon-based
model dispatch (`src/backend/src/tools/chart_generator.py`).

Conventions of the embedding:
* calendar dates are modelled as day numbers (`ℤ`, one unit = one day);
* monetary amounts and all model arithmetic use `ℚ` (the source uses
  IEEE doubles; the claims are about the exact algorithmic identities);
* calls into external statistical libraries (statsmodels ADF test,
  ARIMA fits, Prophet, the fitted random-forest regressor, calendar
  arithmetic of `datetime`) are abstracted as oracle parameters, with
  `Option` results where the library call can raise;
* Python exceptions caught by `try/except` become `Option`/branching.
-/

namespace Forecast

/-- Transaction record: a row of the `cashflow_df` dataframe as consumed by
`AdvancedForecaster` (`payment_date`, `amount_sgd`, `direction`).
Dates are day numbers; `direction` is `true` for `"in"`. -/
structure Txn where
  payment_date : ℤ
  amount_sgd : ℚ
  direction : Bool
deriving Repr, DecidableEq

/-- Dates column of the transaction list. -/
def datesOf (txns : List Txn) : List ℤ :=
  txns.map (·.payment_date)

/-- Earliest transaction date (`daily['payment_date'].min()`); `0` on empty
input, where pandas would produce `NaT` and the constructor would raise. -/
def minDate (txns : List Txn) : ℤ :=
  (datesOf txns).foldr min (datesOf txns).headI

/-- Latest transaction date (`daily['payment_date'].max()`). -/
def maxDate (txns : List Txn) : ℤ :=
  (datesOf txns).foldr max (datesOf txns).headI

/-- Net amount booked on day `d`: the `groupby('payment_date')` sum of
`amount_sgd` over the transactions of that day (0 when no row exists,
matching `reindex(..., fill_value=0)`). -/
def dailyAmount (txns : List Txn) (d : ℤ) : ℚ :=
  ((txns.filter (fun t => t.payment_date = d)).map (·.amount_sgd)).sum

/-- The contiguous day range `pd.date_range(start=a, end=b, freq='D')`. -/
def dateRange (a b : ℤ) : List ℤ :=
  (List.range (b - a + 1).toNat).map (fun i : ℕ => a + (i : ℤ))

/-- Day range of the prepared daily dataframe: from the earliest to the
latest transaction date inclusive. -/
def dailyDates (txns : List Txn) : List ℤ :=
  dateRange (minDate txns) (maxDate txns)

/-- Running sums with accumulator `acc`: the spine of `cumsum()`. -/
def cumsumFrom (acc : ℚ) : List ℚ → List ℚ
  | [] => []
  | x :: xs => (acc + x) :: cumsumFrom (acc + x) xs

/-- `daily['daily_amount'].cumsum()`. -/
def cumsum (xs : List ℚ) : List ℚ :=
  cumsumFrom 0 xs

/-- The `daily_amount` column of `_prepare_daily_data`: one net amount per
calendar day of the range, absent days filled with 0. -/
def dailyAmounts (txns : List Txn) : List ℚ :=
  (dailyDates txns).map (dailyAmount txns)

/-- The `cumulative` column of `_prepare_daily_data`: running sum of the
daily amounts from the start of the series. -/
def cumulativeSeries (txns : List Txn) : List ℚ :=
  cumsum (dailyAmounts txns)

/-- Last entry of the cumulative series (`daily['cumulative'].iloc[-1]`);
defaulting to 0 on an empty series, where pandas would raise. -/
def lastCumulative (txns : List Txn) : ℚ :=
  (cumulativeSeries txns).getLast?.getD 0

/-! ### Stationarity transformer (`_check_stationarity` / `_make_stationary`) -/

/-- One pass of `series.diff().dropna()`: consecutive differences, one
entry shorter than the input. -/
def diffList : List ℚ → List ℚ
  | [] => []
  | [_] => []
  | x :: y :: xs => (y - x) :: diffList (y :: xs)

/-- Loop body of `_make_stationary` restricted to runs on which the
stationarity check returns: the check `stat` abstracts
`_check_stationarity` (the statsmodels augmented Dickey-Fuller test with
threshold p < 0.05) when its `adfuller` call does not raise.  The raise
path of the check is modelled separately by `makeStationaryLoopE`; here
the oracle is total, which matches the use inside `forecast_arima`,
where a raising check aborts the whole `try` body before any fit runs. -/
def makeStationaryLoop (stat : List ℚ → Bool) (current : List ℚ)
    (diff_order : ℕ) : List ℚ × ℕ :=
  if ¬ stat current ∧ diff_order < 3 then
    makeStationaryLoop stat (diffList current) (diff_order + 1)
  else
    (current, diff_order)
termination_by 3 - diff_order
decreasing_by omega

/-- `_make_stationary` under a non-raising check: returns the transformed
series and the number of differencing passes applied. -/
def make_stationary (stat : List ℚ → Bool) (series : List ℚ) : List ℚ × ℕ :=
  makeStationaryLoop stat series 0

/-- Loop body of `_make_stationary` with the check's raise path modelled:
`_check_stationarity` calls statsmodels `adfuller`, which raises on
degenerate input (a constant or too-short series), and `_make_stationary`
has no handler, so the exception propagates.  `statE` returns `none`
exactly when that call raises.  The while condition evaluates the check
before the pass-count bound (Python's short-circuit `and`), so a raise
is possible even on the fourth check. -/
def makeStationaryLoopE (statE : List ℚ → Option Bool) (current : List ℚ)
    (diff_order : ℕ) : Option (List ℚ × ℕ) :=
  match statE current with
  | none => none
  | some b =>
    if ¬ b ∧ diff_order < 3 then
      makeStationaryLoopE statE (diffList current) (diff_order + 1)
    else
      some (current, diff_order)
termination_by 3 - diff_order
decreasing_by omega

/-- `_make_stationary` with the raise path: `some` is a normal return of
the transformed series and pass count, `none` a propagated `adfuller`
exception. -/
def make_stationaryE (statE : List ℚ → Option Bool) (series : List ℚ) :
    Option (List ℚ × ℕ) :=
  makeStationaryLoopE statE series 0

/-! ### Shared result shape (the `ModelResult` dictionaries) -/

/-- Result dictionary shared by every forecasting routine of the module:
`model_type`, `forecast`, `confidence_interval.lower` / `.upper`,
`future_dates` (day numbers), the fit metrics, and the trend label. -/
structure ModelResult where
  model_type : String
  forecast : List ℚ
  lower : List ℚ
  upper : List ℚ
  future_dates : List ℤ
  mae : ℚ
  rmse : ℚ
  r2_score : ℚ
  trend : String
deriving Repr, DecidableEq

/-! ### Fallback forecaster (`_fallback_forecast`) -/

/-- Least-squares straight line `np.polyfit(x, series, 1)` with
`x = 0, 1, ..., n-1`, via the normal equations; returns
`(slope, intercept)`.  For a single-point series numpy's column scaling
zeroes the first Vandermonde column and `lstsq` raises `LinAlgError`
(as does the empty series), so those cases are `none` — the source's
`except` then falls through to the ultimate fallback. -/
def polyfit1 (ys : List ℚ) : Option (ℚ × ℚ) :=
  if ys.length < 2 then none
  else
    let n : ℚ := ys.length
    let xs : List ℚ := (List.range ys.length).map (fun i => (i : ℚ))
    let sx := xs.sum
    let sy := ys.sum
    let sxy := ((xs.zip ys).map (fun p => p.1 * p.2)).sum
    let sxx := (xs.map (fun x => x * x)).sum
    let slope := (n * sxy - sx * sy) / (n * sxx - sx * sx)
    some (slope, (sy - slope * sx) / n)

/-- Ultimate fallback branch of `_fallback_forecast`: hold the last known
cumulative value flat for `days_ahead` days with a ±10% band, an empty
`future_dates` list, zero metrics and a `"stable"` trend. -/
def ultimateFallback (txns : List Txn) (days_ahead : ℕ) : ModelResult :=
  let current := lastCumulative txns
  { model_type := "Ultimate_Fallback"
    forecast := List.replicate days_ahead current
    lower := List.replicate days_ahead (current * (9/10))
    upper := List.replicate days_ahead (current * (11/10))
    future_dates := []
    mae := 0
    rmse := 0
    r2_score := 0
    trend := "stable" }

/-- `_fallback_forecast`: fit a linear trend to the cumulative series and
extrapolate; the band is the prediction ∓ 10% of itself; on any failure
(degenerate `polyfit`) return the ultimate fallback. -/
def fallback_forecast (txns : List Txn) (days_ahead : ℕ)
    (model_type : String) : ModelResult :=
  let series := cumulativeSeries txns
  match polyfit1 series with
  | some (slope, intercept) =>
    let future_x : List ℚ :=
      (List.range days_ahead).map (fun i => ((series.length + i : ℕ) : ℚ))
    let preds := future_x.map (fun x => slope * x + intercept)
    { model_type := model_type ++ "_Fallback"
      forecast := preds
      lower := preds.map (fun p => p - p * (1/10))
      upper := preds.map (fun p => p + p * (1/10))
      future_dates := (List.range days_ahead).map
        (fun i : ℕ => maxDate txns + (i : ℤ) + 1)
      mae := 0
      rmse := 0
      r2_score := 0
      trend := if slope > 0 then "increasing" else "decreasing" }
  | none => ultimateFallback txns days_ahead

/-! ### ARIMA order grid search (`forecast_arima`) -/

/-- A successful statsmodels ARIMA fit, abstracted to the only attribute
the grid search inspects: its Akaike information criterion. -/
structure ARIMAFit where
  aic : ℚ
deriving Repr, DecidableEq

/-- The order triples visited by the grid search, in loop order:
`for p in range(0,3): for d in range(0,2): for q in range(0,3)`. -/
def orderGrid : List (ℕ × ℕ × ℕ) :=
  (List.range 3).flatMap (fun p =>
    (List.range 2).flatMap (fun d =>
      (List.range 3).map (fun q => (p, d, q))))

/-- One grid-search step: try `ARIMA(series, order=o).fit()` (the oracle
`fit`, `none` when the fit raises and the `except: continue` skips it);
keep the incumbent unless the new fit's AIC is strictly lower (`none`
incumbent corresponds to `best_aic = inf`). -/
def gridStep (fit : ℕ × ℕ × ℕ → Option ARIMAFit)
    (best : Option ((ℕ × ℕ × ℕ) × ARIMAFit)) (o : ℕ × ℕ × ℕ) :
    Option ((ℕ × ℕ × ℕ) × ARIMAFit) :=
  match fit o with
  | none => best
  | some f =>
    match best with
    | none => some (o, f)
    | some (bo, bf) => if f.aic < bf.aic then some (o, f) else some (bo, bf)

/-- The whole grid search: fold the step over the 18 order combinations. -/
def gridSearch (fit : ℕ × ℕ × ℕ → Option ARIMAFit) :
    Option ((ℕ × ℕ × ℕ) × ARIMAFit) :=
  orderGrid.foldl (gridStep fit) none

/-- Model-selection portion of `forecast_arima`: build the cumulative
series, run `_make_stationary` on it (its result is bound but never fed
to any fit — the fits receive `series` itself), grid-search ARIMA orders
on the cumulative series, and if every combination failed fit the fixed
order (1,1,1).  `none` means even that raised, in which case the
enclosing `except` resorts to `_fallback_forecast`.  The oracle `fit`
abstracts `ARIMA(·, order=·).fit()`, taking the series it is fitted on
as its first argument. -/
def arimaSelect (stat : List ℚ → Bool)
    (fit : List ℚ → ℕ × ℕ × ℕ → Option ARIMAFit) (txns : List Txn) :
    Option ((ℕ × ℕ × ℕ) × ARIMAFit) :=
  let series := cumulativeSeries txns
  let _stationary := make_stationary stat series
  match gridSearch (fit series) with
  | some best => some best
  | none => (fit series (1, 1, 1)).map (fun f => ((1, 1, 1), f))

/-! ### Random-forest recursive forecast (`forecast_random_forest`) -/

/-- Feature row of `_create_features`: daily aggregates, calendar fields,
rolling means, lags, and the per-category / per-currency daily sums. -/
structure Features where
  total_amount : ℚ
  avg_amount : ℚ
  transaction_count : ℚ
  net_direction : ℚ
  day_of_week : ℤ
  day_of_month : ℤ
  month : ℤ
  quarter : ℤ
  is_weekend : ℤ
  is_month_end : ℤ
  amount_7d_avg : ℚ
  amount_30d_avg : ℚ
  count_7d_avg : ℚ
  amount_lag_1 : ℚ
  amount_lag_7 : ℚ
  amount_lag_30 : ℚ
  category_sums : List ℚ
  currency_sums : List ℚ
deriving Repr, DecidableEq

/-- The per-iteration feature update of the recursive forecast loop: for
the date `d` of the next step, overwrite `day_of_week`, `day_of_month`
and `month` (the three assignments at the bottom of the loop body) and
leave every other column as it was.  `dow`, `dom`, `mon` abstract the
calendar accessors `weekday()`, `.day`, `.month` on day numbers. -/
def advanceFeatures (dow dom mon : ℤ → ℤ) (d : ℤ) (f : Features) : Features :=
  { f with day_of_week := dow d, day_of_month := dom d, month := mon d }

/-- Feature row in force at iteration `i` of the recursive forecast:
iteration 0 predicts from the last observed row `f0`
(`features_df.iloc[-1:]`); iteration `i+1` predicts from the previous
row advanced to date `lastDate + (i+1)`. -/
def rfFeatureState (dow dom mon : ℤ → ℤ) (f0 : Features) (lastDate : ℤ) :
    ℕ → Features
  | 0 => f0
  | i + 1 =>
    advanceFeatures dow dom mon (lastDate + (i : ℤ) + 1)
      (rfFeatureState dow dom mon f0 lastDate i)

/-- The `future_predictions` list of the recursive loop: prediction `i` is
the (scaled) regressor applied to the feature row in force at step `i`.
`predict` abstracts `rf_model.predict(scaler.transform(·))[0]`. -/
def rfPredictions (dow dom mon : ℤ → ℤ) (predict : Features → ℚ)
    (f0 : Features) (lastDate : ℤ) (days_ahead : ℕ) : List ℚ :=
  (List.range days_ahead).map
    (fun i => predict (rfFeatureState dow dom mon f0 lastDate i))

/-- Confidence band of `forecast_random_forest`: `lower = p * 0.9`,
`upper = p * 1.1` at every index. -/
def rfBand (preds : List ℚ) : List ℚ × List ℚ :=
  (preds.map (fun p => p * (9/10)), preds.map (fun p => p * (11/10)))

/-! ### Ensemble combiner (`ensemble_forecast`) -/

/-- Weighted combination of three equal-length sequences with weights
`aw`, `pw`, `rw` (the numpy expression `a*aw + p*pw + r*rw`). -/
def weighted3 (aw pw rw : ℚ) (xs ys zs : List ℚ) : List ℚ :=
  (xs.zip (ys.zip zs)).map (fun t => t.1 * aw + t.2.1 * pw + t.2.2 * rw)

/-- Ensemble result dictionary: blended forecast and band, the ARIMA
result's dates, per-model and mean MAEs, trend, and the model weights. -/
structure EnsembleResult where
  model_type : String
  forecast : List ℚ
  lower : List ℚ
  upper : List ℚ
  future_dates : List ℤ
  arima_mae : ℚ
  prophet_mae : ℚ
  rf_mae : ℚ
  ensemble_mae : ℚ
  trend : String
  weight_arima : ℚ
  weight_prophet : ℚ
  weight_rf : ℚ
deriving Repr, DecidableEq

/-- Successful body of `ensemble_forecast`, applied to the three model
results: fixed weights 0.4 / 0.4 / 0.2, weighted point forecasts and
bands, dates copied from the ARIMA result, `ensemble_mae` the mean of
the three MAEs, trend from comparing the final blended value with the
last observed cumulative value. -/
def ensembleCombine (a p r : ModelResult) (txns : List Txn) : EnsembleResult :=
  let aw : ℚ := 2/5
  let pw : ℚ := 2/5
  let rw : ℚ := 1/5
  let ef := weighted3 aw pw rw a.forecast p.forecast r.forecast
  { model_type := "Ensemble"
    forecast := ef
    lower := weighted3 aw pw rw a.lower p.lower r.lower
    upper := weighted3 aw pw rw a.upper p.upper r.upper
    future_dates := a.future_dates
    arima_mae := a.mae
    prophet_mae := p.mae
    rf_mae := r.mae
    ensemble_mae := (a.mae + p.mae + r.mae) / 3
    trend :=
      if ef.getLast?.getD 0 > lastCumulative txns then "increasing"
      else "decreasing"
    weight_arima := aw
    weight_prophet := pw
    weight_rf := rw }

/-! ### Horizon-based dispatch (`AIChartGenerator.forecast_cashflow`) -/

/-- The three forecasting back-ends `forecast_cashflow` can route to. -/
inductive ForecastModel
  | arima
  | prophet
  | ensemble
deriving Repr, DecidableEq

/-- Model choice of `forecast_cashflow`: `days_ahead <= 30` uses ARIMA,
`days_ahead <= 90` uses Prophet, anything larger uses the ensemble. -/
def selectModel (days_ahead : ℤ) : ForecastModel :=
  if days_ahead ≤ 30 then .arima
  else if days_ahead ≤ 90 then .prophet
  else .ensemble

/-- The `future_dates` list built by `forecast_arima` (and identically by
the linear fallback tier): `[last_date + timedelta(days=i) for i in
range(1, days_ahead + 1)]`. -/
def arimaFutureDates (txns : List Txn) (days_ahead : ℕ) : List ℤ :=
  (List.range days_ahead).map (fun i : ℕ => maxDate txns + (i : ℤ) + 1)

/-- The `future_dates` list of `forecast_random_forest`: the identical
comprehension `[last_date + timedelta(days=i) for i in range(1,
days_ahead + 1)]`, taken from the feature frame's last index date. -/
def rfFutureDates (lastDate : ℤ) (days_ahead : ℕ) : List ℤ :=
  (List.range days_ahead).map (fun i : ℕ => lastDate + (i : ℤ) + 1)

/-! ## Lemmas about the daily-series builder -/

lemma cumsumFrom_length (acc : ℚ) (xs : List ℚ) :
    (cumsumFrom acc xs).length = xs.length := by
  induction xs generalizing acc with
  | nil => simp [cumsumFrom]
  | cons x xs ih => simp [cumsumFrom, ih]

lemma cumsum_length (xs : List ℚ) : (cumsum xs).length = xs.length :=
  cumsumFrom_length 0 xs

lemma cumsumFrom_getLast? (acc x : ℚ) (xs : List ℚ) :
    (cumsumFrom acc (x :: xs)).getLast? = some (acc + (x :: xs).sum) := by
  induction xs generalizing acc x with
  | nil => simp [cumsumFrom]
  | cons y ys ih =>
    have hstep : cumsumFrom acc (x :: y :: ys) =
        (acc + x) :: cumsumFrom (acc + x) (y :: ys) := rfl
    have hcons : cumsumFrom (acc + x) (y :: ys) =
        (acc + x + y) :: cumsumFrom (acc + x + y) ys := rfl
    rw [hstep, hcons, List.getLast?_cons_cons, ← hcons, ih]
    congr 1
    simp [List.sum_cons]
    ring

lemma cumsum_getLast? (x : ℚ) (xs : List ℚ) :
    (cumsum (x :: xs)).getLast? = some ((x :: xs).sum) := by
  rw [cumsum, cumsumFrom_getLast?, zero_add]

lemma dateRange_length (a b : ℤ) (h : a ≤ b) :
    (dateRange a b).length = (b - a).toNat + 1 := by
  unfold dateRange
  rw [List.length_map, List.length_range]
  omega

lemma dateRange_getElem (a b : ℤ) (i : ℕ) (h : i < (dateRange a b).length) :
    (dateRange a b)[i] = a + (i : ℤ) := by
  unfold dateRange at h ⊢
  rw [List.getElem_map, List.getElem_range]

lemma foldr_min_le (l : List ℤ) (a : ℤ) : l.foldr min a ≤ a := by
  induction l with
  | nil => simp
  | cons x xs ih => exact le_trans (min_le_right x _) ih

lemma le_foldr_max (l : List ℤ) (a : ℤ) : a ≤ l.foldr max a := by
  induction l with
  | nil => simp
  | cons x xs ih => exact le_trans ih (le_max_right x _)

lemma minDate_le_maxDate (txns : List Txn) : minDate txns ≤ maxDate txns :=
  le_trans (foldr_min_le _ _) (le_foldr_max _ _)

lemma dailyDates_length (txns : List Txn) :
    (dailyDates txns).length = (maxDate txns - minDate txns).toNat + 1 :=
  dateRange_length _ _ (minDate_le_maxDate txns)

lemma dailyAmount_eq_zero (txns : List Txn) (d : ℤ)
    (h : ∀ t ∈ txns, t.payment_date ≠ d) : dailyAmount txns d = 0 := by
  unfold dailyAmount
  rw [List.filter_eq_nil_iff.mpr (by simpa using h)]
  simp

/-- Contract of the daily-series builder `_prepare_daily_data`: the series
covers `(max - min).days + 1` calendar days; the amount and cumulative
columns have the same length as the date column; consecutive dates differ
by exactly one day; a day without any transaction carries amount 0; and
the last cumulative value is the sum of all daily amounts. -/
def dailySeriesOK (txns : List Txn) : Prop :=
  (dailyDates txns).length = (maxDate txns - minDate txns).toNat + 1 ∧
  (dailyAmounts txns).length = (dailyDates txns).length ∧
  (cumulativeSeries txns).length = (dailyDates txns).length ∧
  (∀ i : ℕ, ∀ h : i + 1 < (dailyDates txns).length,
      (dailyDates txns).get ⟨i + 1, h⟩ =
        (dailyDates txns).get ⟨i, Nat.lt_of_succ_lt h⟩ + 1) ∧
  (∀ i : ℕ, ∀ h : i < (dailyDates txns).length,
      (∀ t ∈ txns, t.payment_date ≠ (dailyDates txns).get ⟨i, h⟩) →
      (dailyAmounts txns).getD i 0 = 0) ∧
  (cumulativeSeries txns).getLast? = some (dailyAmounts txns).sum

/-- C6: for every transaction set with at least 2 distinct days, the daily
series builder produces one entry per calendar day from the earliest to
the latest transaction date inclusive (length `(max - min).days + 1`,
dates contiguous and strictly increasing), days without transactions have
daily amount 0, and the final cumulative value equals the sum of all
daily net amounts. -/
theorem daily_series_builder_contract (txns : List Txn)
    (hdistinct : 2 ≤ ((datesOf txns).dedup).length) : dailySeriesOK txns := by
  have hlen : (dailyDates txns).length =
      (maxDate txns - minDate txns).toNat + 1 := dailyDates_length txns
  refine ⟨hlen, by simp [dailyAmounts], by simp [cumulativeSeries, cumsum_length, dailyAmounts], ?_, ?_, ?_⟩
  · intro i h
    have h1 : (dailyDates txns).get ⟨i + 1, h⟩ =
        minDate txns + ((i : ℤ) + 1) := by
      simpa using dateRange_getElem (minDate txns) (maxDate txns) (i + 1) h
    have h2 : (dailyDates txns).get ⟨i, Nat.lt_of_succ_lt h⟩ =
        minDate txns + (i : ℤ) := by
      simpa using dateRange_getElem (minDate txns) (maxDate txns) i
        (Nat.lt_of_succ_lt h)
    rw [h1, h2]
    ring
  · intro i h hnone
    have hlt : i < (dailyAmounts txns).length := by
      simpa [dailyAmounts] using h
    rw [List.getD_eq_getElem _ _ hlt]
    unfold dailyAmounts
    rw [List.getElem_map]
    exact dailyAmount_eq_zero txns _ (by simpa using hnone)
  · have hpos : 0 < (dailyAmounts txns).length := by
      simp only [dailyAmounts, List.length_map, hlen]
      omega
    cases hda : dailyAmounts txns with
    | nil => rw [hda] at hpos; simp at hpos
    | cons x xs =>
      unfold cumulativeSeries
      rw [hda, cumsum_getLast?]

/-- Concrete two-day transaction history used by the witnesses. -/
def demoTxns : List Txn :=
  [⟨0, 5, true⟩, ⟨2, -3, false⟩]

/-- Witness for C6 at a concrete two-day history. -/
theorem daily_series_builder_contract_witness :
    2 ≤ ((datesOf demoTxns).dedup).length ∧ dailySeriesOK demoTxns :=
  ⟨by decide, daily_series_builder_contract demoTxns (by decide)⟩

/-! ## C7: the stationarity transformer -/

lemma makeStationaryLoopE_spec (statE : List ℚ → Option Bool) :
    ∀ fuel cur d, 3 - d ≤ fuel → d ≤ 3 →
      (∀ s k, makeStationaryLoopE statE cur d = some (s, k) →
        d ≤ k ∧ k ≤ 3 ∧ s = diffList^[k - d] cur ∧
        (∀ j, d ≤ j → j < k → statE (diffList^[j - d] cur) = some false) ∧
        (k < 3 → statE s = some true)) ∧
      (makeStationaryLoopE statE cur d = none →
        ∃ j, d ≤ j ∧ j ≤ 3 ∧ statE (diffList^[j - d] cur) = none ∧
          ∀ j2, d ≤ j2 → j2 < j → statE (diffList^[j2 - d] cur) = some false) := by
  intro fuel
  induction fuel with
  | zero =>
    intro cur d hfuel hd
    have hd3 : d = 3 := by omega
    rw [makeStationaryLoopE]
    rcases hsc : statE cur with _ | b
    · simp only [hsc]
      refine ⟨(by intro s k h; cases h), ?_⟩
      intro _
      refine ⟨d, le_refl d, hd, by simpa using hsc, ?_⟩
      intro j2 h1 h2
      omega
    · simp only [hsc]
      have hcond : ¬ (¬ b = true ∧ d < 3) := by omega
      rw [if_neg hcond]
      refine ⟨?_, by intro h; cases h⟩
      intro s k h
      simp only [Option.some.injEq, Prod.mk.injEq] at h
      obtain ⟨hs, hk⟩ := h
      subst hs
      subst hk
      refine ⟨le_refl d, hd, by simp, ?_, by omega⟩
      intro j h1 h2
      omega
  | succ fuel ih =>
    intro cur d hfuel hd
    rw [makeStationaryLoopE]
    rcases hsc : statE cur with _ | b
    · simp only [hsc]
      refine ⟨(by intro s k h; cases h), ?_⟩
      intro _
      refine ⟨d, le_refl d, hd, by simpa using hsc, ?_⟩
      intro j2 h1 h2
      omega
    · simp only [hsc]
      by_cases hcond : ¬ b = true ∧ d < 3
      · rw [if_pos hcond]
        obtain ⟨hb, hdlt⟩ := hcond
        have hbf : b = false := by
          cases b
          · rfl
          · exact absurd rfl hb
        obtain ⟨rs, rn⟩ := ih (diffList cur) (d + 1) (by omega) (by omega)
        refine ⟨?_, ?_⟩
        · intro s k h
          obtain ⟨r1, r2, r3, r4, r5⟩ := rs s k h
          refine ⟨by omega, r2, ?_, ?_, r5⟩
          · rw [r3]
            have hk2 : k - d = (k - (d + 1)) + 1 := by omega
            rw [hk2, Function.iterate_succ_apply]
          · intro j hj1 hj2
            rcases Nat.eq_or_lt_of_le hj1 with hj | hj
            · subst hj
              rw [Nat.sub_self]
              simpa [hbf] using hsc
            · have hgot := r4 j (by omega) hj2
              have hk2 : j - d = (j - (d + 1)) + 1 := by omega
              rw [hk2, Function.iterate_succ_apply]
              exact hgot
        · intro h
          obtain ⟨j, hj1, hj2, hj3, hj4⟩ := rn h
          refine ⟨j, by omega, hj2, ?_, ?_⟩
          · have hk2 : j - d = (j - (d + 1)) + 1 := by omega
            rw [hk2, Function.iterate_succ_apply]
            exact hj3
          · intro j2 hja hjb
            rcases Nat.eq_or_lt_of_le hja with hj5 | hj5
            · subst hj5
              rw [Nat.sub_self]
              simpa [hbf] using hsc
            · have hgot := hj4 j2 (by omega) hjb
              have hk2 : j2 - d = (j2 - (d + 1)) + 1 := by omega
              rw [hk2, Function.iterate_succ_apply]
              exact hgot
      · rw [if_neg hcond]
        refine ⟨?_, by intro h; cases h⟩
        intro s k h
        simp only [Option.some.injEq, Prod.mk.injEq] at h
        obtain ⟨hs, hk⟩ := h
        subst hs
        subst hk
        refine ⟨le_refl d, hd, by simp, ?_, ?_⟩
        · intro j h1 h2
          omega
        · intro hdlt
          have hb : b = true := by
            by_contra hb2
            exact hcond ⟨by simpa using hb2, hdlt⟩
          rw [hsc, hb]

/-- C7 corrected: the stationarity transformer terminates on every input
(at most 3 differencing passes ever run); whenever every ADF check it
performs returns a verdict, it returns the transformed series together
with the exact number of differencing passes applied (between 0 and 3),
every series it moved past having tested non-stationary, and — if it
stopped below the cap — the returned series testing stationary; but
when an ADF check raises (statsmodels `adfuller` does so on a constant
or too-short series), `_make_stationary` propagates the exception and
returns nothing, every check before the raising one having reported
non-stationary. -/
theorem make_stationary_exception_spec (statE : List ℚ → Option Bool)
    (series : List ℚ) :
    (∀ s k, make_stationaryE statE series = some (s, k) →
      k ≤ 3 ∧ s = diffList^[k] series ∧
      (∀ j, j < k → statE (diffList^[j] series) = some false) ∧
      (k < 3 → statE s = some true)) ∧
    (make_stationaryE statE series = none →
      ∃ j, j ≤ 3 ∧ statE (diffList^[j] series) = none ∧
        ∀ j2, j2 < j → statE (diffList^[j2] series) = some false) := by
  obtain ⟨hs, hn⟩ := makeStationaryLoopE_spec statE 3 series 0 (by omega)
    (by omega)
  constructor
  · intro s k hk
    obtain ⟨r1, r2, r3, r4, r5⟩ := hs s k hk
    exact ⟨r2, by simpa using r3,
      fun j hj => by simpa using r4 j (by omega) hj, r5⟩
  · intro hnone
    obtain ⟨j, hj1, hj2, hj3, hj4⟩ := hn hnone
    exact ⟨j, hj2, by simpa using hj3,
      fun j2 hj5 => by simpa using hj4 j2 (by omega) hj5⟩

/-- C7 counterexample: on a degenerate (constant two-day) cumulative
series the ADF check raises rather than returning a verdict — the
statsmodels routine rejects a constant or too-short series — and the
transformer returns nothing at all instead of a transformed series and
a pass count. -/
theorem make_stationary_exception_counterexample :
    make_stationaryE (fun _ => none) [(5 : ℚ), 5] = none := by
  rw [make_stationaryE, makeStationaryLoopE]

/-! ## C8: horizon-based dispatch -/

/-- C8: `forecast_cashflow` routes every horizon of at most 30 days to
ARIMA, horizons of 31 to 90 days to Prophet, and horizons above 90 days
(in particular 365) to the ensemble. -/
theorem horizon_dispatch_spec :
    (∀ n : ℤ, n ≤ 30 → selectModel n = ForecastModel.arima) ∧
    (∀ n : ℤ, 31 ≤ n → n ≤ 90 → selectModel n = ForecastModel.prophet) ∧
    (∀ n : ℤ, 90 < n → selectModel n = ForecastModel.ensemble) ∧
    selectModel 365 = ForecastModel.ensemble := by
  refine ⟨?_, ?_, ?_, by decide⟩
  · intro n h
    simp [selectModel, h]
  · intro n h1 h2
    rw [selectModel, if_neg (by omega), if_pos h2]
  · intro n h
    rw [selectModel, if_neg (by omega), if_neg (by omega)]

/-! ## C10: fallback metrics are identically zero -/

/-- C10: both fallback tiers report `mae = rmse = r2_score = 0` regardless
of input, and a fallen-back model therefore contributes 0 to the
ensemble's mean-of-MAEs (`ensemble_mae` collapses to the mean of the
other two models' MAEs and the constant 0). -/
theorem fallback_metrics_zero (txns : List Txn) (n : ℕ) (name : String)
    (a p : ModelResult) :
    (fallback_forecast txns n name).mae = 0 ∧
    (fallback_forecast txns n name).rmse = 0 ∧
    (fallback_forecast txns n name).r2_score = 0 ∧
    (ultimateFallback txns n).mae = 0 ∧
    (ultimateFallback txns n).rmse = 0 ∧
    (ultimateFallback txns n).r2_score = 0 ∧
    (ensembleCombine a p (fallback_forecast txns n name) txns).ensemble_mae =
      (a.mae + p.mae + 0) / 3 := by
  have hfb : (fallback_forecast txns n name).mae = 0 ∧
      (fallback_forecast txns n name).rmse = 0 ∧
      (fallback_forecast txns n name).r2_score = 0 := by
    unfold fallback_forecast
    rcases hp : polyfit1 (cumulativeSeries txns) with _ | ⟨slope, intercept⟩ <;>
      simp [hp, ultimateFallback]
  obtain ⟨h1, h2, h3⟩ := hfb
  refine ⟨h1, h2, h3, by simp [ultimateFallback], by simp [ultimateFallback],
    by simp [ultimateFallback], ?_⟩
  simp [ensembleCombine, h1]

/-! ## C9: the recursive forecast only rolls the calendar features -/

/-- C9: in the regression model's recursive multi-step forecast, the
feature row in force at step `i ≥ 1` is the last observed row with only
`day_of_week`, `day_of_month` and `month` overwritten (with the calendar
values of `lastDate + i`); every other column is frozen at its observed
value for the whole horizon, and prediction `i` is the regressor applied
to exactly that row. -/
theorem rf_feature_rollforward (dow dom mon : ℤ → ℤ) (predict : Features → ℚ)
    (f0 : Features) (lastDate : ℤ) (days_ahead : ℕ) :
    (∀ i : ℕ, 1 ≤ i →
      rfFeatureState dow dom mon f0 lastDate i =
        { f0 with
            day_of_week := dow (lastDate + (i : ℤ))
            day_of_month := dom (lastDate + (i : ℤ))
            month := mon (lastDate + (i : ℤ)) }) ∧
    rfPredictions dow dom mon predict f0 lastDate days_ahead =
      (List.range days_ahead).map
        (fun i => predict (rfFeatureState dow dom mon f0 lastDate i)) := by
  refine ⟨?_, rfl⟩
  intro i hi
  induction i with
  | zero => omega
  | succ k ih =>
    cases Nat.eq_zero_or_pos k with
    | inl hk =>
      subst hk
      cases f0
      simp [rfFeatureState, advanceFeatures]
    | inr hk =>
      have hd : lastDate + (k : ℤ) + 1 = lastDate + ((k + 1 : ℕ) : ℤ) := by
        push_cast
        ring
      rw [rfFeatureState, ih hk, hd]
      cases f0
      simp [advanceFeatures]

/-! ## C3: what a single-day history actually returns -/

lemma cumulativeSeries_single (t : Txn) :
    cumulativeSeries [t] = [t.amount_sgd] := by
  have hmin : minDate [t] = t.payment_date := by
    simp [minDate, datesOf]
  have hmax : maxDate [t] = t.payment_date := by
    simp [maxDate, datesOf]
  have hrange : dailyDates [t] = [t.payment_date] := by
    rw [dailyDates, hmin, hmax]
    unfold dateRange
    rw [sub_self]
    norm_num [List.range_succ]
  rw [cumulativeSeries, dailyAmounts, hrange]
  simp [dailyAmount, cumsum, cumsumFrom]

lemma weighted3_getD (wa wp wr : ℚ) (xs ys zs : List ℚ) (i : ℕ)
    (hx : i < xs.length) (hy : i < ys.length) (hz : i < zs.length) :
    (weighted3 wa wp wr xs ys zs).getD i 0 =
      xs.getD i 0 * wa + ys.getD i 0 * wp + zs.getD i 0 * wr := by
  induction xs generalizing ys zs i with
  | nil => simp at hx
  | cons x xs ih =>
    cases ys with
    | nil => simp at hy
    | cons y ys =>
      cases zs with
      | nil => simp at hz
      | cons z zs =>
        cases i with
        | zero => simp [weighted3]
        | succ j =>
          have h := ih ys zs j (by simpa using hx) (by simpa using hy)
            (by simpa using hz)
          simpa [weighted3] using h

/-- C4: when all three models succeed, the ensemble's point forecast and
both confidence bounds are, at every index, the weighted average of the
three models' values with fixed weights 0.4 (ARIMA), 0.4 (Prophet),
0.2 (Random Forest); the reported weights sum to 1; and `ensemble_mae`
is the arithmetic mean of the three models' MAE values. -/
theorem ensemble_weighted_average (a p r : ModelResult) (txns : List Txn) :
    (∀ i : ℕ, i < a.forecast.length → i < p.forecast.length →
      i < r.forecast.length →
      (ensembleCombine a p r txns).forecast.getD i 0 =
        a.forecast.getD i 0 * (2/5) + p.forecast.getD i 0 * (2/5) +
          r.forecast.getD i 0 * (1/5)) ∧
    (∀ i : ℕ, i < a.lower.length → i < p.lower.length → i < r.lower.length →
      (ensembleCombine a p r txns).lower.getD i 0 =
        a.lower.getD i 0 * (2/5) + p.lower.getD i 0 * (2/5) +
          r.lower.getD i 0 * (1/5)) ∧
    (∀ i : ℕ, i < a.upper.length → i < p.upper.length → i < r.upper.length →
      (ensembleCombine a p r txns).upper.getD i 0 =
        a.upper.getD i 0 * (2/5) + p.upper.getD i 0 * (2/5) +
          r.upper.getD i 0 * (1/5)) ∧
    (ensembleCombine a p r txns).weight_arima +
      (ensembleCombine a p r txns).weight_prophet +
      (ensembleCombine a p r txns).weight_rf = 1 ∧
    (ensembleCombine a p r txns).ensemble_mae = (a.mae + p.mae + r.mae) / 3 := by
  refine ⟨?_, ?_, ?_, by norm_num [ensembleCombine], rfl⟩
  · intro i h1 h2 h3
    exact weighted3_getD _ _ _ _ _ _ i h1 h2 h3
  · intro i h1 h2 h3
    exact weighted3_getD _ _ _ _ _ _ i h1 h2 h3
  · intro i h1 h2 h3
    exact weighted3_getD _ _ _ _ _ _ i h1 h2 h3

/-! ## C5: the ARIMA grid search -/

lemma gridStep_eq_none (fit : ℕ × ℕ × ℕ → Option ARIMAFit)
    (acc : Option ((ℕ × ℕ × ℕ) × ARIMAFit)) (o : ℕ × ℕ × ℕ) :
    gridStep fit acc o = none ↔ acc = none ∧ fit o = none := by
  rcases hfa : fit o with _ | f
  · rcases acc with _ | ⟨bo, bf⟩ <;> simp [gridStep, hfa]
  · rcases acc with _ | ⟨bo, bf⟩
    · simp [gridStep, hfa]
    · simp only [gridStep, hfa]
      split <;> simp

lemma gridFold_eq_none (fit : ℕ × ℕ × ℕ → Option ARIMAFit)
    (l : List (ℕ × ℕ × ℕ)) :
    ∀ acc, l.foldl (gridStep fit) acc = none ↔
      acc = none ∧ ∀ o ∈ l, fit o = none := by
  induction l with
  | nil => simp
  | cons a l ih =>
    intro acc
    rw [List.foldl_cons, ih, gridStep_eq_none, List.forall_mem_cons]
    tauto

lemma gridFold_min (fit : ℕ × ℕ × ℕ → Option ARIMAFit)
    (l : List (ℕ × ℕ × ℕ)) :
    ∀ acc o f, l.foldl (gridStep fit) acc = some (o, f) →
      (acc = some (o, f) ∨ (o ∈ l ∧ fit o = some f)) ∧
      (∀ o2 ∈ l, ∀ f2, fit o2 = some f2 → f.aic ≤ f2.aic) ∧
      (∀ o3 f3, acc = some (o3, f3) → f.aic ≤ f3.aic) := by
  induction l with
  | nil =>
    intro acc o f h
    simp only [List.foldl_nil] at h
    refine ⟨Or.inl h, by simp, ?_⟩
    intro o3 f3 h3
    rw [h] at h3
    simp only [Option.some.injEq, Prod.mk.injEq] at h3
    rw [h3.2]
  | cons a l ih =>
    intro acc o f h
    rw [List.foldl_cons] at h
    obtain ⟨h1, h2, h3⟩ := ih (gridStep fit acc a) o f h
    rcases hfa : fit a with _ | g
    · have hstep : gridStep fit acc a = acc := by
        simp [gridStep, hfa]
      rw [hstep] at h1 h3
      refine ⟨?_, ?_, h3⟩
      · exact h1.imp id (fun hm => ⟨List.mem_cons_of_mem a hm.1, hm.2⟩)
      · intro o2 ho2 f2 hf2
        rcases List.mem_cons.mp ho2 with rfl | ho2
        · rw [hfa] at hf2
          cases hf2
        · exact h2 o2 ho2 f2 hf2
    · rcases acc with _ | ⟨bo, bf⟩
      · have hstep : gridStep fit none a = some (a, g) := by
          simp [gridStep, hfa]
        rw [hstep] at h1 h3
        have hg : f.aic ≤ g.aic := h3 a g rfl
        refine ⟨?_, ?_, by intro o3 f3 hc; cases hc⟩
        · refine Or.inr ?_
          rcases h1 with heq | hm
          · simp only [Option.some.injEq, Prod.mk.injEq] at heq
            rw [← heq.1, ← heq.2]
            exact ⟨List.mem_cons_self a l, hfa⟩
          · exact ⟨List.mem_cons_of_mem a hm.1, hm.2⟩
        · intro o2 ho2 f2 hf2
          rcases List.mem_cons.mp ho2 with rfl | ho2
          · rw [hfa] at hf2
            rw [Option.some.inj hf2] at hg
            exact hg
          · exact h2 o2 ho2 f2 hf2
      · by_cases hlt : g.aic < bf.aic
        · have hstep : gridStep fit (some (bo, bf)) a = some (a, g) := by
            simp [gridStep, hfa, hlt]
          rw [hstep] at h1 h3
          have hg : f.aic ≤ g.aic := h3 a g rfl
          refine ⟨?_, ?_, ?_⟩
          · refine Or.inr ?_
            rcases h1 with heq | hm
            · simp only [Option.some.injEq, Prod.mk.injEq] at heq
              rw [← heq.1, ← heq.2]
              exact ⟨List.mem_cons_self a l, hfa⟩
            · exact ⟨List.mem_cons_of_mem a hm.1, hm.2⟩
          · intro o2 ho2 f2 hf2
            rcases List.mem_cons.mp ho2 with rfl | ho2
            · rw [hfa] at hf2
              rw [Option.some.inj hf2] at hg
              exact hg
            · exact h2 o2 ho2 f2 hf2
          · intro o3 f3 hc
            simp only [Option.some.injEq, Prod.mk.injEq] at hc
            rw [← hc.2]
            exact le_trans hg (le_of_lt hlt)
        · have hstep : gridStep fit (some (bo, bf)) a = some (bo, bf) := by
            simp [gridStep, hfa, hlt]
          rw [hstep] at h1 h3
          have hbf : f.aic ≤ bf.aic := h3 bo bf rfl
          refine ⟨?_, ?_, ?_⟩
          · rcases h1 with heq | hm
            · exact Or.inl heq
            · exact Or.inr ⟨List.mem_cons_of_mem a hm.1, hm.2⟩
          · intro o2 ho2 f2 hf2
            rcases List.mem_cons.mp ho2 with rfl | ho2
            · rw [hfa] at hf2
              rw [← Option.some.inj hf2]
              exact le_trans hbf (not_lt.mp hlt)
            · exact h2 o2 ho2 f2 hf2
          · intro o3 f3 hc
            simp only [Option.some.injEq, Prod.mk.injEq] at hc
            rw [← hc.2]
            exact hbf

/-- C5: the ARIMA forecaster grid-searches exactly the 18 combinations
with p in 0..2, d in 0..1, q in 0..2; each fit is run on the cumulative
series (the selection does not depend on the stationarity oracle, whose
output is computed but never fed to any fit); any combination whose fit
raises is skipped; the retained fit has the lowest AIC among the
successful combinations; and if every combination fails, the fixed order
(1,1,1) is fitted before resorting to the module-level fallback (`none`).
-/
theorem arima_grid_search_spec (stat stat2 : List ℚ → Bool)
    (fit : List ℚ → ℕ × ℕ × ℕ → Option ARIMAFit) (txns : List Txn) :
    orderGrid.length = 18 ∧
    (∀ p d q : ℕ, (p, d, q) ∈ orderGrid ↔ p ≤ 2 ∧ d ≤ 1 ∧ q ≤ 2) ∧
    arimaSelect stat fit txns = arimaSelect stat2 fit txns ∧
    (∀ o f, gridSearch (fit (cumulativeSeries txns)) = some (o, f) →
      arimaSelect stat fit txns = some (o, f) ∧
      o ∈ orderGrid ∧ fit (cumulativeSeries txns) o = some f ∧
      ∀ o2 ∈ orderGrid, ∀ f2, fit (cumulativeSeries txns) o2 = some f2 →
        f.aic ≤ f2.aic) ∧
    ((∀ o ∈ orderGrid, fit (cumulativeSeries txns) o = none) →
      arimaSelect stat fit txns =
        (fit (cumulativeSeries txns) (1, 1, 1)).map (fun f => ((1, 1, 1), f))) := by
  refine ⟨by decide, ?_, rfl, ?_, ?_⟩
  · intro p d q
    simp only [orderGrid, List.mem_flatMap, List.mem_map, List.mem_range,
      Prod.mk.injEq]
    constructor
    · rintro ⟨p2, hp2, d2, hd2, q2, hq2, h1, h2, h3⟩
      subst h1
      subst h2
      subst h3
      omega
    · rintro ⟨hp, hd, hq⟩
      exact ⟨p, by omega, d, by omega, q, by omega, rfl, rfl, rfl⟩
  · intro o f h
    have hsel : arimaSelect stat fit txns = some (o, f) := by
      unfold arimaSelect
      simp only [h]
    obtain ⟨h1, h2, h3⟩ := gridFold_min (fit (cumulativeSeries txns)) orderGrid
      none o f h
    rcases h1 with hc | hm
    · cases hc
    · exact ⟨hsel, hm.1, hm.2, h2⟩
  · intro hall
    have hnone : gridSearch (fit (cumulativeSeries txns)) = none :=
      (gridFold_eq_none (fit (cumulativeSeries txns)) orderGrid none).mpr
        ⟨rfl, hall⟩
    unfold arimaSelect
    simp only [hnone]

/-! ## C2: result lengths and date contiguity -/

lemma arimaFutureDates_get (txns : List Txn) (n i : ℕ)
    (h : i < (arimaFutureDates txns n).length) :
    (arimaFutureDates txns n).get ⟨i, h⟩ = maxDate txns + (i : ℤ) + 1 := by
  unfold arimaFutureDates at h ⊢
  rw [List.get_eq_getElem, List.getElem_map, List.getElem_range]

lemma rfFutureDates_get (lastDate : ℤ) (n i : ℕ)
    (h : i < (rfFutureDates lastDate n).length) :
    (rfFutureDates lastDate n).get ⟨i, h⟩ = lastDate + (i : ℤ) + 1 := by
  unfold rfFutureDates at h ⊢
  rw [List.get_eq_getElem, List.getElem_map, List.getElem_range]

/-- C2 amended: every code-constructed output obeys the length-N and
consecutive-dates contract — `forecast_arima`'s `future_dates` (N
consecutive days starting the day after the last observed date); the
random-forest model's loop-built forecast (exactly N predictions), its
comprehension bands (same length as the prediction list they map over),
and its `future_dates` (the identical comprehension over the feature
frame's last date: N consecutive days starting the day after it); the
ensemble, which copies the ARIMA result's `future_dates` unchanged; and
the linear fallback tier's four lists (its dates built by the identical
expression) — and the ultimate fallback's forecast and band also have
length N, but its `future_dates` is the empty list, not of length N. -/
theorem forecast_length_contract (txns : List Txn) (n : ℕ) (name : String)
    (dow dom mon : ℤ → ℤ) (predict : Features → ℚ) (f0 : Features)
    (lastDate : ℤ) (preds : List ℚ) (a p r : ModelResult) :
    (arimaFutureDates txns n).length = n ∧
    (∀ i : ℕ, ∀ h : i + 1 < (arimaFutureDates txns n).length,
      (arimaFutureDates txns n).get ⟨i + 1, h⟩ =
        (arimaFutureDates txns n).get ⟨i, Nat.lt_of_succ_lt h⟩ + 1) ∧
    (∀ h : 0 < (arimaFutureDates txns n).length,
      (arimaFutureDates txns n).get ⟨0, h⟩ = maxDate txns + 1) ∧
    (rfPredictions dow dom mon predict f0 lastDate n).length = n ∧
    (rfBand preds).1.length = preds.length ∧
    (rfBand preds).2.length = preds.length ∧
    (rfFutureDates lastDate n).length = n ∧
    (∀ i : ℕ, ∀ h : i + 1 < (rfFutureDates lastDate n).length,
      (rfFutureDates lastDate n).get ⟨i + 1, h⟩ =
        (rfFutureDates lastDate n).get ⟨i, Nat.lt_of_succ_lt h⟩ + 1) ∧
    (∀ h : 0 < (rfFutureDates lastDate n).length,
      (rfFutureDates lastDate n).get ⟨0, h⟩ = lastDate + 1) ∧
    (ensembleCombine a p r txns).future_dates = a.future_dates ∧
    (fallback_forecast txns n name).forecast.length = n ∧
    (fallback_forecast txns n name).lower.length = n ∧
    (fallback_forecast txns n name).upper.length = n ∧
    (polyfit1 (cumulativeSeries txns) ≠ none →
      (fallback_forecast txns n name).future_dates = arimaFutureDates txns n) ∧
    (ultimateFallback txns n).forecast.length = n ∧
    (ultimateFallback txns n).lower.length = n ∧
    (ultimateFallback txns n).upper.length = n ∧
    (ultimateFallback txns n).future_dates = [] := by
  have hlens : (fallback_forecast txns n name).forecast.length = n ∧
      (fallback_forecast txns n name).lower.length = n ∧
      (fallback_forecast txns n name).upper.length = n := by
    unfold fallback_forecast
    rcases hp : polyfit1 (cumulativeSeries txns) with _ | ⟨s, ic⟩ <;>
      simp [hp, ultimateFallback]
  refine ⟨by simp [arimaFutureDates], ?_, ?_, by simp [rfPredictions],
    by simp [rfBand], by simp [rfBand], by simp [rfFutureDates], ?_, ?_, rfl,
    hlens.1, hlens.2.1, hlens.2.2,
    ?_, by simp [ultimateFallback], by simp [ultimateFallback],
    by simp [ultimateFallback], rfl⟩
  · intro i h
    rw [arimaFutureDates_get, arimaFutureDates_get]
    push_cast
    ring
  · intro h
    rw [arimaFutureDates_get]
    norm_num
  · intro i h
    rw [rfFutureDates_get, rfFutureDates_get]
    push_cast
    ring
  · intro h
    rw [rfFutureDates_get]
    norm_num
  · intro hne
    unfold fallback_forecast
    rcases hp : polyfit1 (cumulativeSeries txns) with _ | ⟨s, ic⟩
    · exact absurd hp hne
    · simp only [hp]
      rfl

/-- C2 counterexample: a call that lands in the ultimate fallback tier
(one-day history, horizon 3) returns an empty `future_dates` list, not
one of the requested length 3. -/
theorem forecast_length_counterexample :
    (fallback_forecast [⟨0, 7, true⟩] 3 "ARIMA").future_dates.length ≠ 3 := by
  have hpf : polyfit1 (cumulativeSeries [⟨0, 7, true⟩]) = none := by
    rw [cumulativeSeries_single]
    unfold polyfit1
    simp
  unfold fallback_forecast
  simp [hpf, ultimateFallback]

/-! ## C1: the confidence band does not always contain the forecast -/

/-- C1 at the failing input: a single transaction of −10 on one day,
horizon 1.  The call lands in the ultimate fallback, whose band is
`[current * 0.9, current * 1.1]`; for the negative forecast −10 the code
returns lower = −9 and upper = −11, so `lower[0] <= forecast[0]` (and
`forecast[0] <= upper[0]`) is violated — the multiplicative ±10% band
inverts on negative values (`forecast_random_forest` and the linear
tier build their bands by the same pattern). -/
theorem confidence_band_failing_eval :
    (fallback_forecast [⟨0, -10, true⟩] 1 "ARIMA").forecast.getD 0 0 = -10 ∧
    (fallback_forecast [⟨0, -10, true⟩] 1 "ARIMA").lower.getD 0 0 = -9 ∧
    (fallback_forecast [⟨0, -10, true⟩] 1 "ARIMA").upper.getD 0 0 = -11 ∧
    ¬ ((fallback_forecast [⟨0, -10, true⟩] 1 "ARIMA").lower.getD 0 0 ≤
        (fallback_forecast [⟨0, -10, true⟩] 1 "ARIMA").forecast.getD 0 0) ∧
    ¬ ((fallback_forecast [⟨0, -10, true⟩] 1 "ARIMA").forecast.getD 0 0 ≤
        (fallback_forecast [⟨0, -10, true⟩] 1 "ARIMA").upper.getD 0 0) := by
  have hres : fallback_forecast [⟨0, -10, true⟩] 1 "ARIMA" =
      ultimateFallback [⟨0, -10, true⟩] 1 := by
    have hpf : polyfit1 (cumulativeSeries [⟨0, -10, true⟩]) = none := by
      rw [cumulativeSeries_single]
      unfold polyfit1
      simp
    unfold fallback_forecast
    simp only [hpf]
  have hlast : lastCumulative [⟨0, -10, true⟩] = -10 := by
    rw [lastCumulative, cumulativeSeries_single]
    norm_num
  rw [hres]
  refine ⟨?_, ?_, ?_, ?_, ?_⟩ <;> norm_num [ultimateFallback, hlast]

end Forecast
